import Mathlib

/-!
Verification of the cross-lingual news-search pipeline (src/main.py).

Python strings are modelled as `List Char`; the wall clock is an explicit
`DateTime` parameter; external collaborators (completion service, translator,
content store) are oracle functions passed to the pipeline.
-/

namespace NewsBot

/-- Python strings are modelled as lists of characters. -/
abbrev Str := List Char

/-- Coerce a Lean string literal to the `Str` model. -/
def str (s : String) : Str := s.data

/-! ## Date-time values

`datetime` values are modelled by their six calendar fields.  Microseconds are
always zero in this program (no format parses them), so they are omitted. -/

structure DateTime where
  year : Nat
  month : Nat
  day : Nat
  hour : Nat
  minute : Nat
  second : Nat
deriving Repr, DecidableEq

/-- Encode a date-time as a single natural number.  For field values in the
ranges enforced by the `datetime` constructor (month ≤ 12, day ≤ 31,
hour ≤ 23, minute ≤ 59, second ≤ 59) this encoding is order-isomorphic to
Python's field-lexicographic `datetime` comparison. -/
def DateTime.enc (d : DateTime) : Nat :=
  ((((d.year * 13 + d.month) * 32 + d.day) * 24 + d.hour) * 60 + d.minute) * 60 + d.second

/-- Comparison of date-times, mirroring `datetime.__le__`. -/
def DateTime.le (a b : DateTime) : Bool := decide (a.enc ≤ b.enc)

/-- Field bounds guaranteed by the `datetime` constructor. -/
def DateTime.Valid (d : DateTime) : Prop :=
  1 ≤ d.month ∧ d.month ≤ 12 ∧ 1 ≤ d.day ∧ d.day ≤ 31 ∧
  d.hour ≤ 23 ∧ d.minute ≤ 59 ∧ d.second ≤ 59

/-- On constructor-valid date-times, the numeric encoding agrees with
field-lexicographic order, so `DateTime.le` is faithful to Python's
`datetime` comparison. -/
theorem DateTime.enc_le_iff_lex (a b : DateTime) (ha : a.Valid) (hb : b.Valid) :
    a.enc ≤ b.enc ↔
      (a.year < b.year ∨ (a.year = b.year ∧ (a.month < b.month ∨ (a.month = b.month ∧
        (a.day < b.day ∨ (a.day = b.day ∧ (a.hour < b.hour ∨ (a.hour = b.hour ∧
          (a.minute < b.minute ∨ (a.minute = b.minute ∧ a.second ≤ b.second)))))))))) := by
  obtain ⟨hm1, hm2, hd1, hd2, hh, hmin, hs⟩ := ha
  obtain ⟨hm1', hm2', hd1', hd2', hh', hmin', hs'⟩ := hb
  unfold DateTime.enc
  constructor
  · intro h
    by_contra hc
    push_neg at hc
    omega
  · intro h
    omega

/-! ## CPython `_strptime` model

`datetime.strptime` compiles each format into a regular expression (see
CPython `Lib/_strptime.py`) and matches it with backtracking, then requires
the match to cover the whole input.  The regex fragments used by the three
formats in `parse_date` are:

  %Y → four digits          %m, %I → 1[0-2]|0[1-9]|[1-9]
  %d → 3[01]|[12]\d|0[1-9]|[1-9]    %H → 2[0-3]|[0-1]\d|\d
  %M → [0-5]\d|\d           %S → 6[0-1]|[0-5]\d|\d
  %b → month abbreviation (case-insensitive)
  %p → am|pm (case-insensitive)
  a whitespace run in the format → \s+

We model a backtracking matcher as a parser returning the ordered list of
candidate (value, rest) pairs, sequenced depth-first, which reproduces the
regex engine's leftmost alternation order. -/

/-- A nondeterministic parser: ordered candidate results, regex-backtracking
style. -/
def Pars (α : Type) : Type := Str → List (α × Str)

instance : Monad Pars where
  pure a := fun cs => [(a, cs)]
  bind p f := fun cs => (p cs).flatMap (fun r => f r.1 r.2)

/-- Ordered alternation: left alternative's candidates first. -/
def orP {α : Type} (p q : Pars α) : Pars α := fun cs => p cs ++ q cs

/-- Numeric value of a decimal digit character. -/
def digitVal (c : Char) : Nat := c.toNat - 48

/-- Decimal digit test (ASCII). -/
def isDig (c : Char) : Bool := 48 ≤ c.toNat && c.toNat ≤ 57

/-- ASCII lower-casing, for the case-insensitive fragments. -/
def lowerCh (c : Char) : Char :=
  if 65 ≤ c.toNat && c.toNat ≤ 90 then Char.ofNat (c.toNat + 32) else c

/-- Python `\s` on ASCII input: space, tab, newline, vertical tab, form feed,
carriage return. -/
def pyIsSpace (c : Char) : Bool :=
  c.toNat = 32 || c.toNat = 9 || c.toNat = 10 || c.toNat = 11 || c.toNat = 12 || c.toNat = 13

/-- Exact literal character. -/
def litP (c : Char) : Pars Unit := fun cs =>
  match cs with
  | a :: rest => if a = c then [((), rest)] else []
  | [] => []

/-- A single decimal digit (regex `\d`). -/
def pDigit1 : Pars Nat := fun cs =>
  match cs with
  | a :: rest => if isDig a then [(digitVal a, rest)] else []
  | [] => []

/-- A two-character token given by a partial decoding function. -/
def pTwo (f : Char → Char → Option Nat) : Pars Nat := fun cs =>
  match cs with
  | a :: b :: rest =>
    match f a b with
    | some v => [(v, rest)]
    | none => []
  | _ => []

/-- A one-character token given by a partial decoding function. -/
def pOne (f : Char → Option Nat) : Pars Nat := fun cs =>
  match cs with
  | a :: rest =>
    match f a with
    | some v => [(v, rest)]
    | none => []
  | [] => []

/-- Regex `%Y`: exactly four digits. -/
def pYear : Pars Nat := fun cs =>
  match cs with
  | a :: b :: c :: d :: rest =>
    if isDig a && isDig b && isDig c && isDig d then
      [(((digitVal a * 10 + digitVal b) * 10 + digitVal c) * 10 + digitVal d, rest)]
    else []
  | _ => []

/-- Nonzero decimal digit (regex `[1-9]`). -/
def oneTo9 (a : Char) : Option Nat :=
  if 49 ≤ a.toNat && a.toNat ≤ 57 then some (digitVal a) else none

/-- Regex `1[0-2]|0[1-9]` (the two-character alternatives of `%m` and `%I`). -/
def month2 (a b : Char) : Option Nat :=
  if a = '1' && (b = '0' || b = '1' || b = '2') then some (10 + digitVal b)
  else if a = '0' && 49 ≤ b.toNat && b.toNat ≤ 57 then some (digitVal b)
  else none

/-- Regex `%m` / `%I`: `1[0-2]|0[1-9]|[1-9]`. -/
def pMonthNum : Pars Nat := orP (pTwo month2) (pOne oneTo9)

/-- Regex `3[01]|[12]\d|0[1-9]` (the two-character alternatives of `%d`). -/
def day2 (a b : Char) : Option Nat :=
  if a = '3' && (b = '0' || b = '1') then some (30 + digitVal b)
  else if (a = '1' || a = '2') && isDig b then some (digitVal a * 10 + digitVal b)
  else if a = '0' && 49 ≤ b.toNat && b.toNat ≤ 57 then some (digitVal b)
  else none

/-- Regex `%d`: `3[01]|[12]\d|0[1-9]|[1-9]`. -/
def pDay : Pars Nat := orP (pTwo day2) (pOne oneTo9)

/-- Regex `2[0-3]|[0-1]\d` (the two-character alternatives of `%H`). -/
def hour2 (a b : Char) : Option Nat :=
  if a = '2' && (b = '0' || b = '1' || b = '2' || b = '3') then some (20 + digitVal b)
  else if (a = '0' || a = '1') && isDig b then some (digitVal a * 10 + digitVal b)
  else none

/-- Regex `%H`: `2[0-3]|[0-1]\d|\d`. -/
def pHour24 : Pars Nat := orP (pTwo hour2) pDigit1

/-- Regex `[0-5]\d` (the two-character alternative of `%M`). -/
def min2 (a b : Char) : Option Nat :=
  if 48 ≤ a.toNat && a.toNat ≤ 53 && isDig b then some (digitVal a * 10 + digitVal b)
  else none

/-- Regex `%M`: `[0-5]\d|\d`. -/
def pMinute : Pars Nat := orP (pTwo min2) pDigit1

/-- Regex `6[0-1]|[0-5]\d` (the two-character alternatives of `%S`). -/
def sec2 (a b : Char) : Option Nat :=
  if a = '6' && (b = '0' || b = '1') then some (60 + digitVal b)
  else if 48 ≤ a.toNat && a.toNat ≤ 53 && isDig b then some (digitVal a * 10 + digitVal b)
  else none

/-- Regex `%S`: `6[0-1]|[0-5]\d|\d`. -/
def pSecond : Pars Nat := orP (pTwo sec2) pDigit1

/-- Month number of a lower-cased three-letter abbreviation. -/
def abbrevIndex (a b c : Char) : Option Nat :=
  if a = 'j' && b = 'a' && c = 'n' then some 1
  else if a = 'f' && b = 'e' && c = 'b' then some 2
  else if a = 'm' && b = 'a' && c = 'r' then some 3
  else if a = 'a' && b = 'p' && c = 'r' then some 4
  else if a = 'm' && b = 'a' && c = 'y' then some 5
  else if a = 'j' && b = 'u' && c = 'n' then some 6
  else if a = 'j' && b = 'u' && c = 'l' then some 7
  else if a = 'a' && b = 'u' && c = 'g' then some 8
  else if a = 's' && b = 'e' && c = 'p' then some 9
  else if a = 'o' && b = 'c' && c = 't' then some 10
  else if a = 'n' && b = 'o' && c = 'v' then some 11
  else if a = 'd' && b = 'e' && c = 'c' then some 12
  else none

/-- Regex `%b`: a locale month abbreviation, case-insensitively. -/
def pMonthAbbrev : Pars Nat := fun cs =>
  match cs with
  | a :: b :: c :: rest =>
    match abbrevIndex (lowerCh a) (lowerCh b) (lowerCh c) with
    | some m => [(m, rest)]
    | none => []
  | _ => []

/-- Regex `%p`: `am|pm`, case-insensitively; 0 for am, 1 for pm. -/
def pAmPm : Pars Nat := fun cs =>
  match cs with
  | a :: b :: rest =>
    if lowerCh a = 'a' && lowerCh b = 'm' then [(0, rest)]
    else if lowerCh a = 'p' && lowerCh b = 'm' then [(1, rest)]
    else []
  | _ => []

/-- Length of the leading whitespace run. -/
def wsCount : Str → Nat
  | [] => 0
  | c :: cs => if pyIsSpace c then wsCount cs + 1 else 0

/-- Regex `\s+` (a whitespace run in the format string): consumes at least one
whitespace character, greedy candidates first. -/
def wsP : Pars Unit := fun cs =>
  let n := wsCount cs
  (List.range n).map (fun i => ((), cs.drop (n - i)))

/-- Run a format's matcher: the regex must cover the whole input, and the
first full-covering candidate in backtracking order wins. -/
def runP {α : Type} (p : Pars α) (cs : Str) : Option α :=
  match (p cs).filter (fun r => r.2.isEmpty) with
  | [] => none
  | r :: _ => some r.1

/-- Leap-year rule used by `datetime`. -/
def isLeap (y : Nat) : Bool := (y % 4 == 0 && y % 100 != 0) || y % 400 == 0

/-- Number of days in a month, as enforced by the `datetime` constructor. -/
def daysInMonth (y m : Nat) : Nat :=
  if m = 2 then (if isLeap y then 29 else 28)
  else if m = 4 || m = 6 || m = 9 || m = 11 then 30
  else 31

/-- The `datetime` constructor: validates every field, `none` models the
`ValueError` that `strptime` lets escape when a regex-accepted value (such as
second 60, day 31 in April, or year 0) is rejected. -/
def mkDatetime (y mo d h mi s : Nat) : Option DateTime :=
  if 1 ≤ y ∧ y ≤ 9999 ∧ 1 ≤ mo ∧ mo ≤ 12 ∧ 1 ≤ d ∧ d ≤ daysInMonth y mo
      ∧ h ≤ 23 ∧ mi ≤ 59 ∧ s ≤ 59 then
    some ⟨y, mo, d, h, mi, s⟩
  else none

/-- Matcher for format `"%Y-%m-%d"`. -/
def fmt1P : Pars (Nat × Nat × Nat) := do
  let y ← pYear
  litP '-'
  let mo ← pMonthNum
  litP '-'
  let d ← pDay
  pure (y, mo, d)

/-- Matcher for format `"%b %d, %Y %I:%M %p"`. -/
def fmt2P : Pars (Nat × Nat × Nat × Nat × Nat × Nat) := do
  let mo ← pMonthAbbrev
  wsP
  let d ← pDay
  litP ','
  wsP
  let y ← pYear
  wsP
  let h ← pMonthNum
  litP ':'
  let mi ← pMinute
  wsP
  let ap ← pAmPm
  pure (mo, d, y, h, mi, ap)

/-- Matcher for format `"%Y-%m-%d %H:%M:%S"`. -/
def fmt3P : Pars (Nat × Nat × Nat × Nat × Nat × Nat) := do
  let y ← pYear
  litP '-'
  let mo ← pMonthNum
  litP '-'
  let d ← pDay
  wsP
  let h ← pHour24
  litP ':'
  let mi ← pMinute
  litP ':'
  let s ← pSecond
  pure (y, mo, d, h, mi, s)

/-- The `%I`/`%p` hour conversion performed by `_strptime`. -/
def convHour (h12 ap : Nat) : Nat :=
  if ap = 0 then (if h12 = 12 then 0 else h12)
  else (if h12 = 12 then 12 else h12 + 12)

/-- `datetime.strptime(s, "%Y-%m-%d")`, as an `Option`. -/
def strptime1 (s : Str) : Option DateTime :=
  match runP fmt1P s with
  | some (y, mo, d) => mkDatetime y mo d 0 0 0
  | none => none

/-- `datetime.strptime(s, "%b %d, %Y %I:%M %p")`, as an `Option`. -/
def strptime2 (s : Str) : Option DateTime :=
  match runP fmt2P s with
  | some (mo, d, y, h12, mi, ap) => mkDatetime y mo d (convHour h12 ap) mi 0
  | none => none

/-- `datetime.strptime(s, "%Y-%m-%d %H:%M:%S")`, as an `Option`. -/
def strptime3 (s : Str) : Option DateTime :=
  match runP fmt3P s with
  | some (y, mo, d, h, mi, s2) => mkDatetime y mo d h mi s2
  | none => none

/-- `parse_date` from src/main.py.  The wall clock is passed explicitly as
`now`: every `datetime.now()` the call could perform returns this instant. -/
def parse_date (now : DateTime) (s : Str) : DateTime :=
  if s = [] then now
  else
    match strptime1 s with
    | some d => d
    | none =>
      match strptime2 s with
      | some d => d
      | none =>
        match strptime3 s with
        | some d => d
        | none => now

/-! ## Data model of the pipeline -/

/-- The metadata record carried by a content-store hit.  Every field is
optional: `metadata.get` supplies defaults at use sites. -/
structure Metadata where
  date : Option Str
  text : Option Str
  title : Option Str
  link : Option Str
deriving Repr, DecidableEq

/-- A single content-store hit: an opaque score and a metadata record. -/
structure Match where
  score : Int
  metadata : Metadata
deriving Repr, DecidableEq

/-- The three failure arms of `extract_tags`'s `try` block: `requests.Timeout`,
`requests.RequestException`, and any other exception. -/
inductive Fault where
  | timeout
  | requestError (msg : Str)
  | other (msg : Str)
deriving Repr, DecidableEq

/-- The warnings the pipeline surfaces through `st.warning`, as structured
events. -/
inductive Warning where
  | translateFail (tag : Str) (msg : Str)
  | namespaceFail (ns : Str) (msg : Str)
deriving Repr, DecidableEq

/-- Python `str.strip()` (ASCII whitespace): drop the leading run, then the
trailing run. -/
def pyStrip (l : Str) : Str :=
  ((l.dropWhile (fun c => pyIsSpace c)).reverse.dropWhile (fun c => pyIsSpace c)).reverse

/-- Python `str.split(",")`: split at every comma, keeping empty pieces; the
empty string yields one empty piece. -/
def splitOnComma : Str → List Str
  | [] => [[]]
  | c :: cs =>
    if c = ',' then [] :: splitOnComma cs
    else
      match splitOnComma cs with
      | [] => [[c]]
      | p :: ps => (c :: p) :: ps

/-- `extract_tags` from src/main.py.  The completion collaborator's reply is
the oracle `resp`: on success the generated text is stripped, split on commas,
each piece stripped, and empty pieces are dropped; every `except` arm returns
the empty list. -/
def extract_tags (resp : Except Fault Str) : List Str :=
  match resp with
  | Except.error _ => []
  | Except.ok generated =>
    let tags := splitOnComma (pyStrip generated)
    (tags.map pyStrip).filter (fun t => !t.isEmpty)

/-- The tag-translation loop from src/main.py (lines 115-121): each tag is
translated independently; a failing tag is skipped and contributes one
warning; order of successes is preserved. -/
def translateAll (tr : Str → Except Str Str) : List Str → List Str × List Warning
  | [] => ([], [])
  | t :: rest =>
    let acc := translateAll tr rest
    match tr t with
    | Except.ok g => (g :: acc.1, acc.2)
    | Except.error e => (acc.1, Warning.translateFail t e :: acc.2)

/-- One namespace's pass of the search loop (src/main.py lines 140-152).
The `try` wraps the whole inner tag loop, so the first failing query aborts
the remaining tags of this namespace; matches extended before the failure
are kept in `all_results`. -/
def searchNamespaceTags (q : Str → Str → Except Str (List Match)) (ns : Str) :
    List Str → List Match × Option Warning
  | [] => ([], none)
  | t :: rest =>
    match q ns t with
    | Except.ok ms =>
      let acc := searchNamespaceTags q ns rest
      (ms ++ acc.1, acc.2)
    | Except.error e => ([], some (Warning.namespaceFail ns e))

/-- The full fan-out over the namespace list: contributions and warnings of
each namespace are appended in namespace order. -/
def searchFanout (q : Str → Str → Except Str (List Match)) :
    List Str → List Str → List Match × List Warning
  | [], _ => ([], [])
  | ns :: rest, tags =>
    let r := searchNamespaceTags q ns tags
    let acc := searchFanout q rest tags
    (r.1 ++ acc.1, (match r.2 with | some w => [w] | none => []) ++ acc.2)

/-- The sort key of line 158: `parse_date(x.metadata.get("date", "1900-01-01"))`. -/
def dateKey (now : DateTime) (m : Match) : DateTime :=
  parse_date now (m.metadata.date.getD (str "1900-01-01"))

/-- The comparison realised by `sorted(..., key=..., reverse=True)`: `a` may
precede `b` when `a`'s normalized date is ≥ `b`'s. -/
def descLe (now : DateTime) (a b : Match) : Bool :=
  decide ((dateKey now b).enc ≤ (dateKey now a).enc)

/-- `sorted_results` from src/main.py (lines 156-160): a stable sort of the
flat match collection by normalized date, descending.  Python's `sorted` is
stable and `reverse=True` preserves the input order of key-equal elements,
so any stable sort under `descLe` is a faithful model. -/
def sorted_results (now : DateTime) (l : List Match) : List Match :=
  l.mergeSort (descLe now)

/-! ## The request pipeline (the Search button handler) -/

/-- Collaborator calls, recorded as a trace to state which calls occur. -/
inductive CallEv where
  | completionCall
  | translateCall (tag : Str)
  | searchCall (ns : Str) (tag : Str)
deriving Repr, DecidableEq

/-- Terminal states of one query, per the handler's `st.stop()` exits and
final display. -/
inductive Outcome where
  | emptyQuery
  | extractionFailed
  | translationFailed
  | noIndex
  | noMatches
  | results (rs : List Match)
deriving Repr, DecidableEq

/-- The configured namespace list (line 131). -/
def namespaces : List Str := [str "sandesh"]

/-- The (namespace, tag) queries actually issued in one namespace's pass:
the error-free prefix plus the first failing tag, after which the `except`
aborts the tag loop. -/
def executedTags (q : Str → Str → Except Str (List Match)) (ns : Str) :
    List Str → List Str
  | [] => []
  | t :: rest =>
    match q ns t with
    | Except.ok _ => t :: executedTags q ns rest
    | Except.error _ => [t]

/-- The Search button handler (src/main.py lines 99-172) as one function of
the query and the collaborator oracles.  Returns the terminal outcome and
the trace of collaborator calls made.  `hasIndex` models
`indexes[0].name if indexes else None` being truthy. -/
def runQuery (uq : Str) (completion : Except Fault Str)
    (tr : Str → Except Str Str) (hasIndex : Bool)
    (q : Str → Str → Except Str (List Match)) (now : DateTime) :
    Outcome × List CallEv :=
  if uq = [] then (Outcome.emptyQuery, [])
  else
    let tags := extract_tags completion
    let calls0 := [CallEv.completionCall]
    if tags = [] then (Outcome.extractionFailed, calls0)
    else
      let trRes := translateAll tr tags
      let calls1 := calls0 ++ tags.map CallEv.translateCall
      if trRes.1 = [] then (Outcome.translationFailed, calls1)
      else if hasIndex = false then (Outcome.noIndex, calls1)
      else
        let fan := searchFanout q namespaces trRes.1
        let calls2 := calls1 ++
          namespaces.flatMap (fun ns => (executedTags q ns trRes.1).map (CallEv.searchCall ns))
        if fan.1 = [] then (Outcome.noMatches, calls2)
        else (Outcome.results (sorted_results now fan.1), calls2)

/-! ## Concrete fixtures used by witnesses and counterexamples -/

/-- A fixed wall-clock instant. -/
def now0 : DateTime := ⟨2026, 10, 12, 0, 0, 0⟩

/-- A second, later wall-clock instant. -/
def now1 : DateTime := ⟨2026, 10, 12, 0, 0, 1⟩

/-- Two matches sharing the same `text` body (and date). -/
def mDupA : Match := ⟨1, ⟨some (str "2025-01-02"), some (str "same body"), none, none⟩⟩

/-- Second copy of the duplicated text, different score. -/
def mDupB : Match := ⟨2, ⟨some (str "2025-01-02"), some (str "same body"), none, none⟩⟩

/-- Two matches with equal normalized dates but different texts. -/
def mEqA : Match := ⟨1, ⟨some (str "2025-03-04"), some (str "first"), none, none⟩⟩

/-- Second match with the same date as `mEqA`. -/
def mEqB : Match := ⟨2, ⟨some (str "2025-03-04"), some (str "second"), none, none⟩⟩

/-! ## Helper lemmas -/

/-- The stable sort is a permutation of its input. -/
theorem sorted_results_perm_helper (now : DateTime) (l : List Match) :
    (sorted_results now l).Perm l :=
  List.mergeSort_perm l (descLe now)

/-- The sort comparison is transitive. -/
theorem descLe_trans (now : DateTime) (a b c : Match) :
    descLe now a b → descLe now b c → descLe now a c := by
  simp only [descLe, decide_eq_true_eq]
  exact fun h1 h2 => Nat.le_trans h2 h1

/-- The sort comparison is total. -/
theorem descLe_total (now : DateTime) (a b : Match) :
    descLe now a b || descLe now b a := by
  simp only [descLe, Bool.or_eq_true, decide_eq_true_eq]
  exact Nat.le_total _ _

/-- The head of `dropWhile p l` does not satisfy `p`. -/
theorem dropWhile_head_not {p : Char → Bool} :
    ∀ (l : Str) (c : Char) (rest : Str), l.dropWhile p = c :: rest → p c = false := by
  intro l
  induction l with
  | nil => intro c rest h; cases h
  | cons a l ih =>
    intro c rest h
    by_cases hpa : p a
    · rw [List.dropWhile_cons_of_pos hpa] at h
      exact ih c rest h
    · rw [List.dropWhile_cons_of_neg hpa] at h
      cases h
      exact Bool.of_not_eq_true hpa

/-- A nonempty `dropWhile` keeps the last element of the list. -/
theorem getLast?_dropWhile {p : Char → Bool} :
    ∀ (l : Str), l.dropWhile p ≠ [] → (l.dropWhile p).getLast? = l.getLast? := by
  intro l
  induction l with
  | nil => intro h; simp at h
  | cons a l ih =>
    intro h
    by_cases hpa : p a
    · rw [List.dropWhile_cons_of_pos hpa] at h ⊢
      have hl : l ≠ [] := by
        intro hnil; rw [hnil] at h; simp at h
      rw [ih h]
      obtain ⟨b, l2, rfl⟩ := List.exists_cons_of_ne_nil hl
      exact List.getLast?_cons_cons.symm
    · rw [List.dropWhile_cons_of_neg hpa]

/-- Absence of leading and trailing whitespace. -/
def trimmedStr (t : Str) : Prop :=
  (∀ c, t.head? = some c → pyIsSpace c = false) ∧
  (∀ c, t.getLast? = some c → pyIsSpace c = false)

/-- The result of `pyStrip` has no leading or trailing whitespace. -/
theorem pyStrip_trimmed (l : Str) : trimmedStr (pyStrip l) := by
  unfold pyStrip trimmedStr
  constructor
  · intro c hc
    rw [List.head?_reverse] at hc
    have hne : (l.dropWhile (fun c => pyIsSpace c)).reverse.dropWhile (fun c => pyIsSpace c) ≠ [] := by
      intro hnil; rw [hnil] at hc; cases hc
    rw [getLast?_dropWhile _ hne, List.getLast?_reverse] at hc
    obtain ⟨rest, hrest⟩ : ∃ rest, l.dropWhile (fun c => pyIsSpace c) = c :: rest := by
      cases hd : l.dropWhile (fun c => pyIsSpace c) with
      | nil => rw [hd] at hc; cases hc
      | cons x xs =>
        rw [hd] at hc
        simp only [List.head?_cons, Option.some.injEq] at hc
        exact ⟨xs, by rw [hc]⟩
    exact dropWhile_head_not l c rest hrest
  · intro c hc
    rw [List.getLast?_reverse] at hc
    cases hd : (l.dropWhile (fun c => pyIsSpace c)).reverse.dropWhile (fun c => pyIsSpace c) with
    | nil => rw [hd] at hc; cases hc
    | cons x xs =>
      rw [hd] at hc
      simp only [List.head?_cons, Option.some.injEq] at hc
      subst hc
      exact dropWhile_head_not _ x xs hd

/-- Successful translation of one tag, as an `Option`. -/
def okTranslation (tr : Str → Except Str Str) (t : Str) : Option Str :=
  match tr t with
  | Except.ok g => some g
  | Except.error _ => none

/-- The warning produced by one failing tag, as an `Option`. -/
def failWarning (tr : Str → Except Str Str) (t : Str) : Option Warning :=
  match tr t with
  | Except.ok _ => none
  | Except.error e => some (Warning.translateFail t e)

/-- The matches of one store reply, empty on error. -/
def okMatches (r : Except Str (List Match)) : List Match :=
  match r with
  | Except.ok ms => ms
  | Except.error _ => []

/-! ## Claim theorems -/

/-- C6: for every keyword list, the translation loop outputs exactly the
successful translations in keyword order (no gap markers), hence at most as
many outputs as keywords, and it records one warning per failing keyword —
a failure never aborts the remaining keywords. -/
theorem translateAll_spec (tr : Str → Except Str Str) (tags : List Str) :
    (translateAll tr tags).1 = tags.filterMap (okTranslation tr) ∧
    (translateAll tr tags).1.length ≤ tags.length ∧
    (translateAll tr tags).2 = tags.filterMap (failWarning tr) := by
  refine ⟨?_, ?_, ?_⟩
  · induction tags with
    | nil => rfl
    | cons t rest ih =>
      simp only [translateAll, List.filterMap_cons, okTranslation]
      cases htr : tr t with
      | ok g => simpa [htr] using ih
      | error e => simpa [htr] using ih
  · induction tags with
    | nil => exact Nat.le_refl 0
    | cons t rest ih =>
      simp only [translateAll]
      cases htr : tr t with
      | ok g => simpa using Nat.succ_le_succ ih
      | error e => simpa using Nat.le_succ_of_le ih
  · induction tags with
    | nil => rfl
    | cons t rest ih =>
      simp only [translateAll, List.filterMap_cons, failWarning]
      cases htr : tr t with
      | ok g => simpa [htr] using ih
      | error e => simpa [htr] using ih

/-- C10: the sequence handed to the presentation layer is a permutation of
the flat match collection — every collected Match appears exactly as often
as collected (duplicated texts included) — and the reported article count
equals the number of collected matches. -/
theorem sorted_results_permutation (now : DateTime) (l : List Match) :
    (sorted_results now l).Perm l ∧
    (sorted_results now l).length = l.length ∧
    ∀ m : Match, (sorted_results now l).count m = l.count m := by
  have hp := sorted_results_perm_helper now l
  exact ⟨hp, hp.length_eq, fun m => hp.count_eq m⟩

/-- C1 (counterexample): two matches with identical `text` both survive
aggregation — the output is not duplicate-free. -/
theorem sorted_results_dup_text_counterexample :
    ¬ List.Pairwise (fun a b : Match => a.metadata.text ≠ b.metadata.text)
      (sorted_results now0 [mDupA, mDupB]) := by
  have hsorted : sorted_results now0 [mDupA, mDupB] = [mDupA, mDupB] :=
    List.mergeSort_of_sorted (by decide)
  rw [hsorted]
  decide

/-- C1 (amended): the aggregator performs no deduplication by `text`: for
every text value, the output contains exactly as many Matches with that
text as the input does, so duplicates with identical text all survive in
arrival order of the sort. -/
theorem sorted_results_text_count_preserved (now : DateTime) (l : List Match) (t : Str) :
    ((sorted_results now l).countP (fun m => decide (m.metadata.text = some t))) =
      l.countP (fun m => decide (m.metadata.text = some t)) :=
  (sorted_results_perm_helper now l).countP_eq _

/-- C3: `parse_date` tries the three patterns in the fixed order
`%Y-%m-%d`, `%b %d, %Y %I:%M %p`, `%Y-%m-%d %H:%M:%S`; the first pattern
that parses decides the result exactly; on the empty string or when no
pattern parses it returns the invocation instant `now` (a value ≥ the
instant at invocation), never an error and never a sentinel minimum. -/
theorem parse_date_pattern_order (now : DateTime) (s : Str) :
    (s = [] → parse_date now s = now) ∧
    (∀ d, strptime1 s = some d → parse_date now s = d) ∧
    (∀ d, strptime1 s = none → strptime2 s = some d → parse_date now s = d) ∧
    (∀ d, strptime1 s = none → strptime2 s = none → strptime3 s = some d →
      parse_date now s = d) ∧
    (strptime1 s = none → strptime2 s = none → strptime3 s = none →
      parse_date now s = now ∧ DateTime.le now (parse_date now s) = true) := by
  have hempty1 : strptime1 ([] : Str) = none := by decide
  refine ⟨?_, ?_, ?_, ?_, ?_⟩
  · intro h; simp [parse_date, h]
  · intro d hd
    have hne : s ≠ [] := by
      intro h; rw [h, hempty1] at hd; cases hd
    simp [parse_date, hne, hd]
  · intro d h1 h2
    have hne : s ≠ [] := by
      intro h
      rw [h] at h2
      have : strptime2 ([] : Str) = none := by decide
      rw [this] at h2; cases h2
    simp [parse_date, hne, h1, h2]
  · intro d h1 h2 h3
    have hne : s ≠ [] := by
      intro h
      rw [h] at h3
      have : strptime3 ([] : Str) = none := by decide
      rw [this] at h3; cases h3
    simp [parse_date, hne, h1, h2, h3]
  · intro h1 h2 h3
    by_cases hne : s = []
    · refine ⟨by simp [parse_date, hne], ?_⟩
      simp [parse_date, hne, DateTime.le]
    · refine ⟨by simp [parse_date, hne, h1, h2, h3], ?_⟩
      simp [parse_date, hne, h1, h2, h3, DateTime.le]

/-- C3 (witness): the second pattern parses "Feb 22, 2025 05:46 pm" (the
first does not), and `parse_date` returns exactly the encoded instant
2025-02-22 17:46:00. -/
theorem parse_date_pattern_order_witness :
    parse_date now0 (str "Feb 22, 2025 05:46 pm") = ⟨2025, 2, 22, 17, 46, 0⟩ :=
  (parse_date_pattern_order now0 (str "Feb 22, 2025 05:46 pm")).2.2.1
    ⟨2025, 2, 22, 17, 46, 0⟩ (by decide) (by decide)

/-- C9 (counterexample): `parse_date` is not a pure function of its input:
on the unparseable empty string, invocations at two different wall-clock
instants return different results. -/
theorem parse_date_not_pure_counterexample :
    parse_date now0 (str "") ≠ parse_date now1 (str "") := by decide

/-- C9 (amended): `parse_date` is a pure function of its input string and
the invocation instant: when some pattern parses the input, the result does
not depend on the invocation instant at all; when the input is nonempty and
no pattern parses it, the result is exactly the invocation instant (so
invocations at different times differ). -/
theorem parse_date_time_invariant (t1 t2 : DateTime) (s : Str) :
    ((strptime1 s ≠ none ∨ strptime2 s ≠ none ∨ strptime3 s ≠ none) →
      parse_date t1 s = parse_date t2 s) ∧
    (s ≠ [] → strptime1 s = none → strptime2 s = none → strptime3 s = none →
      parse_date t1 s = t1 ∧ parse_date t2 s = t2) := by
  constructor
  · intro h
    have hne : s ≠ [] := by
      intro hnil
      rw [hnil] at h
      revert h; decide
    cases h1 : strptime1 s with
    | some d => simp [parse_date, hne, h1]
    | none =>
      cases h2 : strptime2 s with
      | some d => simp [parse_date, hne, h1, h2]
      | none =>
        cases h3 : strptime3 s with
        | some d => simp [parse_date, hne, h1, h2, h3]
        | none =>
          rw [h1, h2, h3] at h
          simp at h
  · intro hne h1 h2 h3
    constructor
    · simp [parse_date, hne, h1, h2, h3]
    · simp [parse_date, hne, h1, h2, h3]

/-- C9 (witness): on a parseable date string, invocations at two different
instants agree. -/
theorem parse_date_time_invariant_witness :
    parse_date now0 (str "2025-02-23") = parse_date now1 (str "2025-02-23") :=
  (parse_date_time_invariant now0 now1 (str "2025-02-23")).1 (Or.inl (by decide))

/-- C5: the aggregator's output is sorted by normalized date non-increasing
(adjacent or not, every earlier element's key is ≥ every later one's), and
the sort is stable: two matches with equal normalized dates keep their
input order. -/
theorem sorted_results_sorted_stable (now : DateTime) (l : List Match) :
    List.Pairwise (fun a b => (dateKey now b).enc ≤ (dateKey now a).enc)
      (sorted_results now l) ∧
    (∀ a b : Match, (dateKey now a).enc = (dateKey now b).enc →
      List.Sublist [a, b] l → List.Sublist [a, b] (sorted_results now l)) := by
  constructor
  · have h := List.sorted_mergeSort (descLe_trans now) (descLe_total now) l
    exact h.imp (fun hab => by simpa [descLe] using hab)
  · intro a b heq hsub
    exact List.pair_sublist_mergeSort (descLe_trans now) (descLe_total now)
      (by simp [descLe, heq]) hsub

/-- C5 (witness): two matches with equal normalized dates stay in input
order after aggregation. -/
theorem sorted_results_sorted_stable_witness :
    List.Sublist [mEqA, mEqB] (sorted_results now0 [mEqA, mEqB]) :=
  (sorted_results_sorted_stable now0 [mEqA, mEqB]).2 mEqA mEqB (by decide)
    (List.Sublist.refl _)

/-- C7: every keyword `extract_tags` returns is non-empty with no leading or
trailing whitespace (the generated text is split on commas, pieces trimmed,
empty pieces dropped), and every failure arm of the completion call yields
the empty sequence instead of propagating the fault. -/
theorem extract_tags_spec (resp : Except Fault Str) :
    (∀ t, t ∈ extract_tags resp → t ≠ [] ∧ trimmedStr t) ∧
    (∀ f, resp = Except.error f → extract_tags resp = []) := by
  cases resp with
  | error f =>
    constructor
    · intro t ht
      simp [extract_tags] at ht
    · intro f2 _
      rfl
  | ok g =>
    constructor
    · intro t ht
      simp only [extract_tags, List.mem_filter, List.mem_map] at ht
      obtain ⟨⟨u, hu, rfl⟩, hne⟩ := ht
      refine ⟨?_, pyStrip_trimmed u⟩
      intro hnil
      rw [hnil] at hne
      simp at hne
    · intro f h
      exact Except.noConfusion h

/-- C7 (witness): on generated text " aa, b ,, c " the returned tag "aa" is
non-empty and trimmed. -/
theorem extract_tags_spec_witness :
    str "aa" ≠ [] ∧ trimmedStr (str "aa") :=
  (extract_tags_spec (Except.ok (str " aa, b ,, c "))).1 (str "aa") (by decide)

/-- C2 (amended): failure isolation in the fan-out is per partition, not per
call.  Partitions contribute independently (parts 1-2); a partition all of
whose queries succeed contributes every query's matches in order with no
warning (part 3); but when a query for keyword `t` fails, that partition
keeps only the matches of the keywords before `t`, skips `t` and all
remaining keywords, and surfaces one warning (part 4). -/
theorem searchFanout_per_namespace_isolation (q : Str → Str → Except Str (List Match))
    (nss tags : List Str) :
    (searchFanout q nss tags).1 =
      (nss.map (fun ns => (searchNamespaceTags q ns tags).1)).flatten ∧
    (searchFanout q nss tags).2 =
      nss.flatMap (fun ns =>
        match (searchNamespaceTags q ns tags).2 with
        | some w => [w]
        | none => []) ∧
    (∀ ns, (∀ t, t ∈ tags → ∃ ms, q ns t = Except.ok ms) →
      searchNamespaceTags q ns tags =
        ((tags.map (fun t => okMatches (q ns t))).flatten, none)) ∧
    (∀ ns pre t post e, tags = pre ++ t :: post →
      (∀ u, u ∈ pre → ∃ ms, q ns u = Except.ok ms) →
      q ns t = Except.error e →
      searchNamespaceTags q ns tags =
        ((pre.map (fun u => okMatches (q ns u))).flatten,
          some (Warning.namespaceFail ns e))) := by
  refine ⟨?_, ?_, ?_, ?_⟩
  · induction nss with
    | nil => rfl
    | cons ns rest ih => simp [searchFanout, ih]
  · induction nss with
    | nil => rfl
    | cons ns rest ih => simp [searchFanout, ih]
  · intro ns
    induction tags with
    | nil => intro _; rfl
    | cons t rest ih =>
      intro h
      obtain ⟨ms, hms⟩ := h t (List.mem_cons_self t rest)
      have ih2 := ih (fun u hu => h u (List.mem_cons_of_mem _ hu))
      simp [searchNamespaceTags, hms, okMatches, ih2]
  · intro ns pre t post e htags
    subst htags
    induction pre with
    | nil =>
      intro _ herr
      simp [searchNamespaceTags, herr]
    | cons u pre2 ih =>
      intro hpre herr
      obtain ⟨ms, hms⟩ := hpre u (List.mem_cons_self u pre2)
      have ih2 := ih (fun v hv => hpre v (List.mem_cons_of_mem _ hv)) herr
      simp [searchNamespaceTags, hms, okMatches, ih2]

/-- The namespace used in the fan-out fixtures. -/
def nsC : Str := str "sandesh"

/-- First translated keyword of the fan-out fixtures. -/
def tagC1 : Str := str "t1"

/-- Second translated keyword of the fan-out fixtures. -/
def tagC2 : Str := str "t2"

/-- A match the store would return for `tagC2`. -/
def mFan : Match := ⟨1, ⟨some (str "2025-01-01"), some (str "body"), none, none⟩⟩

/-- A store oracle that fails on `tagC1` and succeeds on every other tag. -/
def qCex : Str → Str → Except Str (List Match) := fun _ t =>
  if t = tagC1 then Except.error (str "down") else Except.ok [mFan]

/-- C2 (counterexample): the query for the second keyword of the partition
would succeed with a match, yet after the first keyword's query fails the
match never reaches the flat collection — the remaining keywords of the
partition do not proceed. -/
theorem searchFanout_skips_remaining_tags_counterexample :
    qCex nsC tagC2 = Except.ok [mFan] ∧
    mFan ∉ (searchFanout qCex [nsC] [tagC1, tagC2]).1 := by
  refine ⟨rfl, ?_⟩
  decide

/-- C2 (witness): a partition whose first query fails contributes nothing
and one warning, by the isolation theorem with an empty error-free prefix. -/
theorem searchFanout_isolation_witness :
    searchNamespaceTags qCex nsC [tagC1, tagC2] =
      ([], some (Warning.namespaceFail nsC (str "down"))) :=
  (searchFanout_per_namespace_isolation qCex [nsC] [tagC1, tagC2]).2.2.2 nsC [] tagC1 [tagC2]
    (str "down") rfl (fun u hu => absurd hu (List.not_mem_nil u)) rfl

/-- A translator oracle that fails on every tag. -/
def trFail0 : Str → Except Str Str := fun _ => Except.error (str "e")

/-- A store oracle that fails on every query. -/
def qFail0 : Str → Str → Except Str (List Match) := fun _ _ => Except.error (str "e")

/-- C4 (counterexample): a whitespace-only query is not rejected: the
handler proceeds past the emptiness check and issues the completion call. -/
theorem runQuery_whitespace_not_rejected :
    (runQuery (str " ") (Except.error Fault.timeout) trFail0 true qFail0 now0).1 ≠
      Outcome.emptyQuery ∧
    (runQuery (str " ") (Except.error Fault.timeout) trFail0 true qFail0 now0).2 =
      [CallEv.completionCall] := by
  constructor
  · decide
  · decide

/-- C4 (amended): a query that is the empty string is rejected before any
collaborator call: the outcome is the empty-query terminal condition and
the call trace is empty.  (A whitespace-only non-empty query passes the
check, see the counterexample.) -/
theorem runQuery_empty_rejected (completion : Except Fault Str)
    (tr : Str → Except Str Str) (hasIndex : Bool)
    (q : Str → Str → Except Str (List Match)) (now : DateTime) :
    runQuery [] completion tr hasIndex q now = (Outcome.emptyQuery, []) := by
  rfl

/-- C8: whenever extraction yields no keywords, the pipeline stops with the
extraction-failed terminal condition having made only the completion call:
no translation call and no content-store search call occurs. -/
theorem runQuery_extraction_failed_no_calls (uq : Str) (completion : Except Fault Str)
    (tr : Str → Except Str Str) (hasIndex : Bool)
    (q : Str → Str → Except Str (List Match)) (now : DateTime)
    (hne : uq ≠ []) (hext : extract_tags completion = []) :
    runQuery uq completion tr hasIndex q now =
      (Outcome.extractionFailed, [CallEv.completionCall]) ∧
    (∀ t, CallEv.translateCall t ∉ (runQuery uq completion tr hasIndex q now).2) ∧
    (∀ ns t, CallEv.searchCall ns t ∉ (runQuery uq completion tr hasIndex q now).2) := by
  have h : runQuery uq completion tr hasIndex q now =
      (Outcome.extractionFailed, [CallEv.completionCall]) := by
    simp [runQuery, hne, hext]
  refine ⟨h, ?_, ?_⟩
  · intro t
    rw [h]
    simp
  · intro ns t
    rw [h]
    simp

/-- C8 (witness): with a timed-out completion call (hence no extracted
keywords) the pipeline stops after only the completion call. -/
theorem runQuery_extraction_failed_no_calls_witness :
    runQuery (str "farmers protest") (Except.error Fault.timeout) trFail0 true qFail0 now0 =
      (Outcome.extractionFailed, [CallEv.completionCall]) :=
  (runQuery_extraction_failed_no_calls (str "farmers protest") (Except.error Fault.timeout)
    trFail0 true qFail0 now0 (by decide) rfl).1

end NewsBot
